import Mathlib

/-!
Shallow embedding of `src/misc/data/pywars.py`, a one-shot batch script that
paginates a REST listing API, normalizes a few fields and writes CSV files.
Python values that can appear in an output cell are modelled by `Value`
(Python `None`, a string, or an integer).  The network is modelled by the
finite chain of page responses the server would return, in fetch order.
-/

namespace Pywars

/-- A Python value that can appear in a row cell: `None`, a string, or an
integer (ages and extracted ids are `int`s in the script). -/
inductive Value where
  | none
  | str (s : String)
  | int (n : Int)
deriving DecidableEq, Repr

/-- The `next` field of a parsed JSON page: the key may be missing from the
object, be JSON `null`, or hold a URL string. -/
inductive NextField where
  | absent
  | null
  | url (s : String)
deriving DecidableEq, Repr

/-- A parsed page of the listing API: its `next` field and its `results`
list (`α` is the per-resource record shape). -/
structure Page (α : Type) where
  next : NextField
  results : List α
deriving Repr

/-- An error that aborts the Python process: `keyError` models the
`KeyError` raised by `data['next']` on an object without that key, and
`transportError` models a failed HTTP fetch (the model is given only the
finite chain of responses the server answers with, so a fetch past the end
of the chain is a transport failure). -/
inductive PyErr where
  | keyError
  | transportError
deriving DecidableEq, Repr

/-- Lookup of `data['next']` on a parsed page: raises `KeyError` when the
key is absent, otherwise yields `None` or the URL string. -/
def getNextField {α : Type} (p : Page α) : Except PyErr (Option String) :=
  match p.next with
  | .absent => .error .keyError
  | .null => .ok Option.none
  | .url s => .ok (some s)

/-- The pagination loop of the script (`while api_url is not None: data =
get_data(api_url); api_url = data['next']; ...accumulate data['results']`),
driven by the chain of responses in fetch order.  Returns the accumulated
records together with the number of requests issued.  The loop body reads
`data['next']` before accumulating the page's results, so a page with an
absent `next` key raises before its results are kept. -/
def paginate {α : Type} : List (Page α) → Except PyErr (List α × Nat)
  | [] => .error .transportError
  | p :: rest =>
    match getNextField p with
    | .error e => .error e
    | .ok Option.none => .ok (p.results, 1)
    | .ok (some _) =>
      match paginate rest with
      | .error e => .error e
      | .ok (recs, n) => .ok (p.results ++ recs, n + 1)

/-- Digit characters to the natural number they denote, most significant
first (models Python `int` applied to the captured digit group). -/
def natOfDigits (l : List Char) : Nat :=
  l.foldl (fun acc c => acc * 10 + (c.toNat - 48)) 0

/-- Rest of a digit run after its first digit, allowing a single underscore
between digits as Python's `int` does (`1_9` parses, `1__9` and `1_` do
not). -/
def pyDigitsRest : List Char → Option Unit
  | [] => some ()
  | '_' :: c :: cs => if c.isDigit then pyDigitsRest cs else Option.none
  | c :: cs => if c.isDigit then pyDigitsRest cs else Option.none

/-- A non-empty digit run (with optional internal underscores), or `none`. -/
def pyDigits (l : List Char) : Option Nat :=
  match l with
  | [] => Option.none
  | c :: cs =>
    if c.isDigit then
      match pyDigitsRest cs with
      | some _ => some (natOfDigits (l.filter (· ≠ '_')))
      | Option.none => Option.none
    else Option.none

/-- Model of Python `str.strip()`: remove whitespace from both ends. -/
def pyStrip (s : String) : String :=
  ⟨((s.data.dropWhile Char.isWhitespace).reverse.dropWhile Char.isWhitespace).reverse⟩

/-- Model of Python `str.lower()` (the script only compares against ASCII
sentinels, so ASCII case mapping suffices). -/
def pyLower (s : String) : String :=
  ⟨s.data.map Char.toLower⟩

/-- Model of Python `int(s)`: optional surrounding whitespace, an optional
sign, then a non-empty run of decimal digits (single underscores allowed
between digits); `none` where `int` raises `ValueError`. -/
def pyInt (s : String) : Option Int :=
  match (pyStrip s).data with
  | '-' :: rest => (pyDigits rest).map (fun n => -(n : Int))
  | '+' :: rest => (pyDigits rest).map (fun n => (n : Int))
  | l => (pyDigits l).map (fun n => (n : Int))

/-- Argument shape of `extract_id`: the script passes either a reference
URL string, a list of reference URL strings (`person['species']`), or
Python `None`. -/
inductive PyStrOrList where
  | pyNone
  | str (s : String)
  | list (l : List String)
deriving DecidableEq, Repr

/-- The trailing `/(\d+)/$` match of `re.search`, run on the reversed
character list: a final `/`, then a non-empty digit run, then another `/`.
(The maximal trailing digit run must be preceded by `/`; this is equivalent
to the regex search because a shorter digit suffix would be preceded by a
digit, not `/`.) -/
def trailingIdRev : List Char → Option Nat
  | '/' :: rest =>
    let ds := rest.takeWhile Char.isDigit
    if ds.isEmpty then Option.none
    else
      match rest.dropWhile Char.isDigit with
      | '/' :: _ => some (natOfDigits ds.reverse)
      | _ => Option.none
  | _ => Option.none

/-- The match of `re.search(r'/(\d+)/$', url)` returning the captured group as an
integer: the Python code strips the URL first, so `$` cannot match before a
trailing newline and means end-of-string here. -/
def matchTrailingId (s : String) : Option Nat :=
  trailingIdRev s.data.reverse

/-- Body of `extract_id` after the list handling: `if not url: return
None`, then strip and match. -/
def extractFromStr (url : String) : Option Nat :=
  if url = "" then Option.none
  else matchTrailingId (pyStrip url)

/-- The function `extract_id(url_or_list)` from the script: a list contributes only its
first element (empty list gives `None`); a falsy value (Python `None` or
the empty string) gives `None`; otherwise strip and match `/(\d+)/$`. -/
def extract_id : PyStrOrList → Option Nat
  | .pyNone => Option.none
  | .str u => extractFromStr u
  | .list [] => Option.none
  | .list (u :: _) => extractFromStr u

/-- The function `calculate_age(birth_year, reference_year)` from the script: `None` for
a falsy or (case-insensitively) `"unknown"` birth year; suffix `BBY` adds
the numeric prefix to the reference year; suffix `ABY` subtracts it; a
`ValueError` from `int` is caught and yields `None`; any other suffix
yields `None`.  The suffix test `birth_year.endswith('BBY')` and the slice
`birth_year[:-3]` are modelled on the reversed character list. -/
def calculate_age (birth_year : Option String) (reference_year : Int) : Option Int :=
  match birth_year with
  | Option.none => Option.none
  | some s =>
    if s = "" ∨ pyLower s = "unknown" then Option.none
    else
      match s.data.reverse with
      | 'Y' :: 'B' :: 'B' :: rest => (pyInt ⟨rest.reverse⟩).map (fun n => reference_year + n)
      | 'Y' :: 'B' :: 'A' :: rest => (pyInt ⟨rest.reverse⟩).map (fun n => reference_year - n)
      | _ => Option.none

/-- Scrubbing of one cell inside `remove_unkown`: a cell equal to the exact
string `"unknown"`, `"none"` or `"n/a"` becomes Python `None`. -/
def scrubCell (c : Value) : Value :=
  if c = .str "unknown" ∨ c = .str "none" ∨ c = .str "n/a" then .none else c

/-- The function `remove_unkown(data)` from the script, as a pure function on the row
list (the Python version rewrites the cells in place). -/
def remove_unkown (data : List (List Value)) : List (List Value) :=
  data.map (fun row => row.map scrubCell)

/-- The function `process_mass(mass)` from the script: the sentinel tokens pass through
unchanged; any other string has every comma replaced by a period
(`mass.replace(",", ".")` with a one-character pattern is exactly
character-wise substitution). -/
def process_mass (mass : String) : String :=
  if mass = "unknown" ∨ mass = "none" ∨ mass = "n/a" then mass
  else ⟨mass.data.map (fun c => if c = ',' then '.' else c)⟩

/-- A person record as read from a parsed `results` entry.  Fields the
script forwards untouched are `Value`s; `birth_year` feeds
`calculate_age` (Python `None` or a string), `mass` feeds `process_mass`
(a string), `homeworld`/`species` feed `extract_id`. -/
structure Person where
  name : Value
  birth_year : Option String
  eye_color : Value
  gender : Value
  height : Value
  mass : String
  homeworld : PyStrOrList
  species : PyStrOrList
deriving Repr

/-- Lift an optional integer (a Python function that may return `None`)
into a row cell. -/
def optIntVal : Option Int → Value
  | Option.none => .none
  | some n => .int n

/-- Lift an optional natural (extracted reference id) into a row cell. -/
def optNatVal : Option Nat → Value
  | Option.none => .none
  | some n => .int n

/-- The row the people loop appends for one person record. -/
def personRow (p : Person) : List Value :=
  [p.name,
   optIntVal (calculate_age p.birth_year 34),
   p.eye_color,
   p.gender,
   p.height,
   .str (process_mass p.mass),
   optNatVal (extract_id p.homeworld),
   optNatVal (extract_id p.species)]

/-- Header row of `people.csv`. -/
def peopleHeader : List Value :=
  [.str "name", .str "age", .str "eye_color", .str "gender", .str "height",
   .str "mass", .str "homeworld_id", .str "species_id"]

/-- The people extraction end to end: paginate the chain, map each record
to its row, scrub sentinels, and write header plus data rows (the file
contents of `people.csv`, modelled as the list of rows written). -/
def peopleCsv (chain : List (Page Person)) : Except PyErr (List (List Value)) :=
  match paginate chain with
  | .error e => .error e
  | .ok (recs, _) => .ok (peopleHeader :: remove_unkown (recs.map personRow))

/-- A planet record as read from a parsed `results` entry.  `url` is the
id-like field every upstream object carries; the script never reads it. -/
structure PlanetObj where
  url : String
  name : Value
  diameter : Value
  rotation_period : Value
  population : Value
  surface_water : Value
deriving Repr

/-- The planets loop body: rows carry the sequential counter `id`, which
starts at the given value and increments by one per record; nothing from
the source object (in particular not its `url`) feeds the id cell. -/
def planetsLoop (id : Int) : List PlanetObj → List (List Value)
  | [] => []
  | p :: rest =>
    [.int id, p.name, p.diameter, p.rotation_period, p.population, p.surface_water]
      :: planetsLoop (id + 1) rest

/-- The planet rows accumulated by the script: counter starts at 1. -/
def planets_data (objs : List PlanetObj) : List (List Value) :=
  planetsLoop 1 objs

/-- A species record as read from a parsed `results` entry; `url` is the
unread id-like field. -/
structure SpeciesObj where
  url : String
  name : Value
  classification : Value
  designation : Value
  average_height : Value
  average_lifespan : Value
deriving Repr

/-- The species loop body: same sequential-counter shape as the planets
loop. -/
def speciesLoop (id : Int) : List SpeciesObj → List (List Value)
  | [] => []
  | s :: rest =>
    [.int id, s.name, s.classification, s.designation, s.average_height, s.average_lifespan]
      :: speciesLoop (id + 1) rest

/-- The species rows accumulated by the script: counter starts at 1. -/
def species_data (objs : List SpeciesObj) : List (List Value) :=
  speciesLoop 1 objs

/-- First demo person (page 1 of the two-page listing): birth year
`"19BBY"`, homeworld the one-element list `["https://x/1/"]`. -/
def demoPerson1 : Person :=
  { name := .str "Luke Skywalker"
    birth_year := some "19BBY"
    eye_color := .str "blue"
    gender := .str "male"
    height := .str "172"
    mass := "77"
    homeworld := .list ["https://x/1/"]
    species := .list ["https://x/2/"] }

/-- Second demo person (page 2): birth year `"unknown"`. -/
def demoPerson2 : Person :=
  { name := .str "Ancient One"
    birth_year := some "unknown"
    eye_color := .str "unknown"
    gender := .str "n/a"
    height := .str "150"
    mass := "84,5"
    homeworld := .str "https://x/3/"
    species := .list [] }

/-- The two-page demo listing: page 1 points at page 2, page 2's `next` is
null. -/
def demoChain : List (Page Person) :=
  [⟨.url "https://x/people/?page=2", [demoPerson1]⟩, ⟨.null, [demoPerson2]⟩]

/-- Expected first data row of the demo run. -/
def demoRow1 : List Value :=
  [.str "Luke Skywalker", .int 53, .str "blue", .str "male", .str "172",
   .str "77", .int 1, .int 2]

/-- Expected second data row of the demo run: the `"unknown"` birth year
gives an absent age, and the sentinel cells are scrubbed. -/
def demoRow2 : List Value :=
  [.str "Ancient One", .none, .none, .none, .str "150", .str "84.5",
   .int 3, .none]

/-- A page whose parsed JSON object has no `next` key at all. -/
def noNextPage : Page Nat := ⟨.absent, [7]⟩

/-! ### Helper lemmas -/

theorem takeWhile_all_append {α : Type} (p : α → Bool) (a : List α) (x : α) (b : List α)
    (ha : ∀ c ∈ a, p c) (hx : p x = false) :
    (a ++ x :: b).takeWhile p = a := by
  induction a with
  | nil => simp [List.takeWhile_cons, hx]
  | cons c cs ih =>
    have hc : p c := ha c (by simp)
    simp only [List.cons_append, List.takeWhile_cons, hc, if_true]
    rw [ih (fun d hd => ha d (by simp [hd]))]

theorem dropWhile_all_append {α : Type} (p : α → Bool) (a : List α) (x : α) (b : List α)
    (ha : ∀ c ∈ a, p c) (hx : p x = false) :
    (a ++ x :: b).dropWhile p = x :: b := by
  induction a with
  | nil => simp [List.dropWhile_cons, hx]
  | cons c cs ih =>
    have hc : p c := ha c (by simp)
    simp only [List.cons_append, List.dropWhile_cons, hc, if_true]
    exact ih (fun d hd => ha d (by simp [hd]))

theorem dropWhile_append_headFalse {α : Type} (p : α → Bool) (a : List α) (x : α) (b : List α)
    (hx : p x = false) :
    (a ++ x :: b).dropWhile p = a.dropWhile p ++ x :: b := by
  induction a with
  | nil => simp [List.dropWhile_cons, hx]
  | cons c cs ih =>
    by_cases hc : p c <;> simp [List.dropWhile_cons, hc, ih]

/-! ### Claim theorems -/

/-- C1: end-to-end people extraction over the two-page demo listing: the
produced `people.csv` is exactly the header row plus two data rows in page
order; row 1 has age 53 and homeworld_id 1, row 2 has the absent marker
(Python `None`) for age. -/
theorem people_end_to_end :
    peopleCsv demoChain = .ok [peopleHeader, demoRow1, demoRow2] ∧
    demoRow1[1]? = some (.int 53) ∧
    demoRow1[6]? = some (.int 1) ∧
    demoRow2[1]? = some Value.none :=
  ⟨rfl, rfl, rfl, rfl⟩

/-- C8: `process_mass` passes the sentinel tokens through unchanged; any
other string keeps its length and has each character mapped to itself,
except commas, which become periods (`"84,5"` gives `"84.5"`). -/
theorem process_mass_spec :
    (process_mass "unknown" = "unknown" ∧ process_mass "none" = "none" ∧
      process_mass "n/a" = "n/a") ∧
    process_mass "84,5" = "84.5" ∧
    ∀ s : String, s ≠ "unknown" → s ≠ "none" → s ≠ "n/a" →
      (process_mass s).data.length = s.data.length ∧
      ∀ (i : Nat) (c : Char), s.data[i]? = some c →
        (process_mass s).data[i]? = some (if c = ',' then '.' else c) := by
  refine ⟨⟨rfl, rfl, rfl⟩, rfl, ?_⟩
  intro s h1 h2 h3
  have hmass : process_mass s = ⟨s.data.map (fun c => if c = ',' then '.' else c)⟩ := by
    unfold process_mass
    rw [if_neg]
    simp [h1, h2, h3]
  rw [hmass]
  constructor
  · simp
  · intro i c hc
    simp [List.getElem?_map, hc]

/-- Witness for C8 at a concrete non-sentinel input. -/
theorem process_mass_spec_witness :
    (process_mass "a,b").data[1]? = some '.' := by
  have h := (process_mass_spec.2.2 "a,b" (by decide) (by decide) (by decide)).2 1 ',' rfl
  simpa using h

/-- C9: for a non-sentinel mass string, `process_mass` replaces every
comma, not only a single decimal separator: every comma position holds a
period afterwards, `"1,234,5"` becomes `"1.234.5"` and `"1,358"` becomes
`"1.358"`. -/
theorem process_mass_replaces_all_commas :
    process_mass "1,234,5" = "1.234.5" ∧
    process_mass "1,358" = "1.358" ∧
    ∀ s : String, s ≠ "unknown" → s ≠ "none" → s ≠ "n/a" →
      ∀ i : Nat, s.data[i]? = some ',' → (process_mass s).data[i]? = some '.' := by
  refine ⟨rfl, rfl, ?_⟩
  intro s h1 h2 h3 i hc
  have hmass : process_mass s = ⟨s.data.map (fun c => if c = ',' then '.' else c)⟩ := by
    unfold process_mass
    rw [if_neg]
    simp [h1, h2, h3]
  rw [hmass]
  simp [List.getElem?_map, hc]

/-- Witness for C9 at a concrete multi-comma input. -/
theorem process_mass_replaces_all_commas_witness :
    (process_mass "1,234,5").data[5]? = some '.' := by
  have h := process_mass_replaces_all_commas.2.2 "1,234,5" (by decide) (by decide) (by decide)
    5 rfl
  simpa using h

/-- C2 counterexample: on a page whose parsed object lacks the `next` key,
pagination does not return the accumulated records — `data['next']` raises
`KeyError` and the run fails, so the result is an error, not
`.ok ([7], 1)`. -/
theorem paginate_missing_next_fails :
    paginate [noNextPage] = .error .keyError ∧
    paginate [noNextPage] ≠ .ok ([7], 1) := by
  exact ⟨rfl, fun h => Except.noConfusion h⟩

/-- C2 (amended): pagination stops, returning the accumulated records,
when the page's `next` field is null; when the `next` key is absent
altogether, the lookup raises `KeyError` and pagination fails instead of
returning records. -/
theorem paginate_next_field_behavior (α : Type) (p : Page α) (rest : List (Page α)) :
    (p.next = .null → paginate (p :: rest) = .ok (p.results, 1)) ∧
    (p.next = .absent → paginate (p :: rest) = .error .keyError) := by
  constructor
  · intro h
    simp [paginate, getNextField, h]
  · intro h
    simp [paginate, getNextField, h]

/-- Witness for the amended C2 at a one-page chain with null `next`. -/
theorem paginate_next_field_behavior_witness :
    paginate [(⟨.null, [5]⟩ : Page Nat)] = .ok ([5], 1) :=
  (paginate_next_field_behavior Nat ⟨.null, [5]⟩ []).1 rfl

/-- C3: for a finite chain whose pages before the last all carry a URL in
`next` and whose last page has null `next`, pagination terminates with
exactly the concatenation of all pages' `results` in fetch order, and
issues exactly one request per page up to and including the null-`next`
page — any pages beyond it are never requested and do not affect the
result. -/
theorem paginate_chain_spec (α : Type) (pre suf : List (Page α)) (lastPage : Page α)
    (hpre : ∀ p ∈ pre, ∃ s, p.next = .url s) (hlast : lastPage.next = .null) :
    paginate (pre ++ lastPage :: suf) =
      .ok ((pre.map Page.results).flatten ++ lastPage.results, pre.length + 1) := by
  induction pre with
  | nil => simp [paginate, getNextField, hlast]
  | cons p ps ih =>
    obtain ⟨s, hs⟩ := hpre p (by simp)
    have ihh := ih (fun q hq => hpre q (by simp [hq]))
    simp only [List.cons_append, paginate, getNextField, hs, List.append_eq]
    rw [ihh]
    simp [List.append_assoc, Nat.add_comm]

/-- Witness for C3: a two-page chain followed by an unrequested page. -/
theorem paginate_chain_spec_witness :
    paginate ([⟨.url "u", [1]⟩, ⟨.null, [2]⟩, ⟨.null, [99]⟩] : List (Page Nat)) =
      .ok ([1, 2], 2) := by
  have h := paginate_chain_spec Nat [⟨.url "u", [1]⟩] [⟨.null, [99]⟩] ⟨.null, [2]⟩
    (by intro p hp; simp at hp; exact ⟨"u", by rw [hp]⟩) rfl
  simpa using h

theorem planetsLoop_head_ids (objs : List PlanetObj) :
    ∀ start : Int, (planetsLoop start objs).map List.head? =
      (List.range objs.length).map (fun k : Nat => some (Value.int (start + (k : Int)))) := by
  induction objs with
  | nil => intro start; simp [planetsLoop]
  | cons p rest ih =>
    intro start
    simp only [planetsLoop, List.map_cons, List.head?, List.length_cons,
      List.range_succ_eq_map, List.map_map, ih (start + 1), List.map_cons,
      List.cons.injEq]
    constructor
    · norm_num
    · apply List.map_congr_left
      intro k _
      simp only [Function.comp]
      congr 1
      congr 1
      push_cast
      ring

theorem speciesLoop_head_ids (objs : List SpeciesObj) :
    ∀ start : Int, (speciesLoop start objs).map List.head? =
      (List.range objs.length).map (fun k : Nat => some (Value.int (start + (k : Int)))) := by
  induction objs with
  | nil => intro start; simp [speciesLoop]
  | cons p rest ih =>
    intro start
    simp only [speciesLoop, List.map_cons, List.head?, List.length_cons,
      List.range_succ_eq_map, List.map_map, ih (start + 1), List.map_cons,
      List.cons.injEq]
    constructor
    · norm_num
    · apply List.map_congr_left
      intro k _
      simp only [Function.comp]
      congr 1
      congr 1
      push_cast
      ring

/-- C6: in both the planets and the species extraction, the id cell of the
k-th accumulated row (0-indexed) is the integer `1 + k`: ids start at 1 and
increment by exactly 1 per record in extraction order.  The source objects
are arbitrary — in particular the id-like `url` field they carry never
feeds the id cell. -/
theorem sequential_ids :
    (∀ objs : List PlanetObj,
      (planets_data objs).map List.head? =
        (List.range objs.length).map (fun k : Nat => some (Value.int (1 + (k : Int))))) ∧
    (∀ objs : List SpeciesObj,
      (species_data objs).map List.head? =
        (List.range objs.length).map (fun k : Nat => some (Value.int (1 + (k : Int))))) :=
  ⟨fun objs => planetsLoop_head_ids objs 1, fun objs => speciesLoop_head_ids objs 1⟩

/-- C7: the function `remove_unkown` keeps the number, order and lengths of the rows,
maps every cell equal to the string `"unknown"`, `"none"` or `"n/a"` to the
absent marker, and leaves every other cell unchanged. -/
theorem remove_unkown_spec (data : List (List Value)) :
    (remove_unkown data).length = data.length ∧
    (∀ i : Nat, ((remove_unkown data)[i]?).map List.length = (data[i]?).map List.length) ∧
    (∀ (i j : Nat) (c : Value), (data[i]?).bind (fun row => row[j]?) = some c →
      ((remove_unkown data)[i]?).bind (fun row => row[j]?) =
        some (if c = .str "unknown" ∨ c = .str "none" ∨ c = .str "n/a" then .none else c)) := by
  refine ⟨by simp [remove_unkown], ?_, ?_⟩
  · intro i
    cases hrow : data[i]? <;> simp [remove_unkown, List.getElem?_map, hrow]
  · intro i j c hc
    cases hrow : data[i]? with
    | none => simp [hrow] at hc
    | some row =>
      simp only [hrow, Option.some_bind] at hc
      simp [remove_unkown, List.getElem?_map, hrow, hc, scrubCell]

/-- Witness for C7 at a concrete one-cell sentinel row. -/
theorem remove_unkown_spec_witness :
    ((remove_unkown [[Value.str "unknown"]])[0]?).bind (fun row => row[0]?) =
      some Value.none := by
  have h := (remove_unkown_spec [[Value.str "unknown"]]).2.2 0 0 (Value.str "unknown") rfl
  simpa using h

theorem pyLower_ne_unknown_of_ends_y (s : String) (a : List Char) (c : Char)
    (hs : s.data = a ++ [c]) (hc : c.toLower = 'y') : pyLower s ≠ "unknown" := by
  intro h
  have hd : (pyLower s).data = "unknown".data := by rw [h]
  have hmap : (a.map Char.toLower) ++ ['y'] = ['u', 'n', 'k', 'n', 'o', 'w', 'n'] := by
    have : (pyLower s).data = (a.map Char.toLower) ++ ['y'] := by
      simp [pyLower, hs, hc]
    rw [this] at hd
    exact hd
  have h1 : ((a.map Char.toLower) ++ ['y']).getLast? = some 'y' := by simp
  rw [hmap] at h1
  simp at h1

theorem ne_empty_of_data_concat (s : String) (a : List Char) (c : Char)
    (hs : s.data = a ++ [c]) : s ≠ "" := by
  intro h
  rw [h] at hs
  simp at hs

theorem calc_match_none (s : String) (r : Int)
    (h : ∀ rest : List Char, s.data.reverse ≠ 'Y' :: 'B' :: 'B' :: rest ∧
      s.data.reverse ≠ 'Y' :: 'B' :: 'A' :: rest) :
    calculate_age (some s) r = Option.none := by
  simp only [calculate_age]
  by_cases hg : s = "" ∨ pyLower s = "unknown"
  · simp [hg]
  · rw [if_neg hg]
    split
    · rename_i rest heq
      exact absurd heq (h rest).1
    · rename_i rest heq
      exact absurd heq (h rest).2
    · rfl

theorem calc_age_append_bby (p : String) (r : Int) :
    calculate_age (some (p ++ "BBY")) r = (pyInt p).map (fun n => r + n) := by
  have hdata : (p ++ "BBY").data = (p.data ++ ['B', 'B']) ++ ['Y'] := by
    show p.data ++ ['B', 'B', 'Y'] = (p.data ++ ['B', 'B']) ++ ['Y']
    simp
  have hne : p ++ "BBY" ≠ "" := ne_empty_of_data_concat _ _ _ hdata
  have hlow : pyLower (p ++ "BBY") ≠ "unknown" :=
    pyLower_ne_unknown_of_ends_y _ _ _ hdata rfl
  have hrev : (p ++ "BBY").data.reverse = 'Y' :: 'B' :: 'B' :: p.data.reverse := by
    rw [hdata]
    simp
  simp only [calculate_age]
  rw [if_neg (by simp [hne, hlow]), hrev]
  show (pyInt ⟨p.data.reverse.reverse⟩).map (fun n => r + n) = (pyInt p).map (fun n => r + n)
  rw [List.reverse_reverse]

theorem calc_age_append_aby (p : String) (r : Int) :
    calculate_age (some (p ++ "ABY")) r = (pyInt p).map (fun n => r - n) := by
  have hdata : (p ++ "ABY").data = (p.data ++ ['A', 'B']) ++ ['Y'] := by
    show p.data ++ ['A', 'B', 'Y'] = (p.data ++ ['A', 'B']) ++ ['Y']
    simp
  have hne : p ++ "ABY" ≠ "" := ne_empty_of_data_concat _ _ _ hdata
  have hlow : pyLower (p ++ "ABY") ≠ "unknown" :=
    pyLower_ne_unknown_of_ends_y _ _ _ hdata rfl
  have hrev : (p ++ "ABY").data.reverse = 'Y' :: 'B' :: 'A' :: p.data.reverse := by
    rw [hdata]
    simp
  simp only [calculate_age]
  rw [if_neg (by simp [hne, hlow]), hrev]
  show (pyInt ⟨p.data.reverse.reverse⟩).map (fun n => r - n) = (pyInt p).map (fun n => r - n)
  rw [List.reverse_reverse]

/-- C4: with the default reference year 34, the function `calculate_age` yields `None`
for an absent, empty or case-insensitively `"unknown"` birth year; yields
34 plus the numeric prefix for suffix `BBY` (`"19BBY"` gives 53); yields 34
minus the numeric prefix for suffix `ABY` (`"41ABY"` gives -7); and yields
`None`, without raising, for any other suffix or a non-numeric prefix
(`"abcBBY"` gives `None`). -/
theorem calculate_age_spec :
    calculate_age Option.none 34 = Option.none ∧
    calculate_age (some "") 34 = Option.none ∧
    (∀ s : String, pyLower s = "unknown" → calculate_age (some s) 34 = Option.none) ∧
    (∀ p : String, calculate_age (some (p ++ "BBY")) 34 = (pyInt p).map (fun n => 34 + n)) ∧
    (∀ p : String, calculate_age (some (p ++ "ABY")) 34 = (pyInt p).map (fun n => 34 - n)) ∧
    (∀ s : String, (∀ p : String, s ≠ p ++ "BBY") → (∀ p : String, s ≠ p ++ "ABY") →
      calculate_age (some s) 34 = Option.none) ∧
    calculate_age (some "19BBY") 34 = some 53 ∧
    calculate_age (some "41ABY") 34 = some (-7) ∧
    calculate_age (some "unknown") 34 = Option.none ∧
    calculate_age (some "abcBBY") 34 = Option.none := by
  refine ⟨rfl, rfl, ?_, fun p => calc_age_append_bby p 34, fun p => calc_age_append_aby p 34,
    ?_, rfl, rfl, rfl, rfl⟩
  · intro s hlow
    simp [calculate_age, hlow]
  · intro s hb ha
    apply calc_match_none
    intro rest
    constructor
    · intro heq
      have hdata : s.data = rest.reverse ++ ['B', 'B', 'Y'] := by
        have := congrArg List.reverse heq
        simpa using this
      exact hb ⟨rest.reverse⟩ (String.ext hdata)
    · intro heq
      have hdata : s.data = rest.reverse ++ ['A', 'B', 'Y'] := by
        have := congrArg List.reverse heq
        simpa using this
      exact ha ⟨rest.reverse⟩ (String.ext hdata)

/-- Witness for C4: the case-insensitive `"unknown"` clause at a concrete
mixed-case input, and the suffix clause at a concrete non-suffix input. -/
theorem calculate_age_spec_witness :
    calculate_age (some "UnKnOwN") 34 = Option.none :=
  calculate_age_spec.2.2.1 "UnKnOwN" rfl

theorem calc_age_wrong_case_suffix (p t : String) (r : Int)
    (hlow : pyLower t = "bby" ∨ pyLower t = "aby") (hb : t ≠ "BBY") (ha : t ≠ "ABY") :
    calculate_age (some (p ++ t)) r = Option.none := by
  have hmap : t.data.map Char.toLower = "bby".data ∨ t.data.map Char.toLower = "aby".data := by
    cases hlow with
    | inl h => exact Or.inl (congrArg String.data h)
    | inr h => exact Or.inr (congrArg String.data h)
  have hlen : t.data.length = 3 := by
    rcases hmap with h | h <;> simpa using congrArg List.length h
  obtain ⟨c1, c2, c3, ht⟩ := List.length_eq_three.mp hlen
  have hrev : (p ++ t).data.reverse = c3 :: c2 :: c1 :: p.data.reverse := by
    show (p.data ++ t.data).reverse = _
    rw [ht]
    simp
  apply calc_match_none
  intro rest
  constructor
  · intro heq
    rw [hrev] at heq
    simp only [List.cons.injEq] at heq
    obtain ⟨h3, h2, h1, -⟩ := heq
    subst h3; subst h2; subst h1
    rcases hmap with h | h
    · exact hb (String.ext (ht.trans rfl))
    · rw [ht] at h
      simp only [List.map_cons, List.map_nil, List.cons.injEq] at h
      exact absurd h.1 (by decide)
  · intro heq
    rw [hrev] at heq
    simp only [List.cons.injEq] at heq
    obtain ⟨h3, h2, h1, -⟩ := heq
    subst h3; subst h2; subst h1
    rcases hmap with h | h
    · rw [ht] at h
      simp only [List.map_cons, List.map_nil, List.cons.injEq] at h
      exact absurd h.1 (by decide)
    · exact ha (String.ext (ht.trans rfl))

/-- C10: the era-suffix matching of `calculate_age` is case-sensitive —
any string ending in a lowercase or mixed-case variant of `BBY`/`ABY`
(a three-character suffix that equals the era tag only up to case) yields
`None` — while the `"unknown"` sentinel is matched case-insensitively. -/
theorem calculate_age_case_sensitive :
    calculate_age (some "19bby") 34 = Option.none ∧
    calculate_age (some "7aby") 34 = Option.none ∧
    calculate_age (some "19BbY") 34 = Option.none ∧
    calculate_age (some "UNKNOWN") 34 = Option.none ∧
    (∀ (p t : String) (r : Int), (pyLower t = "bby" ∨ pyLower t = "aby") →
      t ≠ "BBY" → t ≠ "ABY" → calculate_age (some (p ++ t)) r = Option.none) :=
  ⟨rfl, rfl, rfl, rfl, fun p t r hlow hb ha => calc_age_wrong_case_suffix p t r hlow hb ha⟩

/-- Witness for C10's general clause at the concrete input `"19bby"`. -/
theorem calculate_age_case_sensitive_witness :
    calculate_age (some ("19" ++ "bby")) 34 = Option.none :=
  calculate_age_case_sensitive.2.2.2.2 "19" "bby" 34 (Or.inl rfl) (by decide) (by decide)

theorem extract_id_pattern (s d : String) (hd : d.data ≠ [])
    (hdig : ∀ c ∈ d.data, c.isDigit) :
    extract_id (.str (s ++ "/" ++ d ++ "/")) = some (natOfDigits d.data) := by
  have hdata : (s ++ "/" ++ d ++ "/").data = s.data ++ '/' :: (d.data ++ ['/']) := by
    show ((s.data ++ ['/']) ++ d.data) ++ ['/'] = s.data ++ '/' :: (d.data ++ ['/'])
    simp
  have hne : (s ++ "/" ++ d ++ "/") ≠ "" := by
    intro h
    rw [h] at hdata
    simp at hdata
  have hwsl : Char.isWhitespace '/' = false := by decide
  have hstep1 : (s ++ "/" ++ d ++ "/").data.dropWhile Char.isWhitespace =
      (s.data.dropWhile Char.isWhitespace) ++ '/' :: (d.data ++ ['/']) := by
    rw [hdata]
    exact dropWhile_append_headFalse _ _ _ _ hwsl
  have hstep2 : ((s ++ "/" ++ d ++ "/").data.dropWhile Char.isWhitespace).reverse =
      '/' :: (d.data.reverse ++ '/' :: (s.data.dropWhile Char.isWhitespace).reverse) := by
    rw [hstep1]
    simp
  have hstrip : (pyStrip (s ++ "/" ++ d ++ "/")).data.reverse =
      '/' :: (d.data.reverse ++ '/' :: (s.data.dropWhile Char.isWhitespace).reverse) := by
    show ((((s ++ "/" ++ d ++ "/").data.dropWhile Char.isWhitespace).reverse.dropWhile
        Char.isWhitespace).reverse).reverse = _
    rw [List.reverse_reverse, hstep2]
    simp [List.dropWhile_cons, hwsl]
  have hdigrev : ∀ c ∈ d.data.reverse, Char.isDigit c := fun c hc =>
    hdig c (List.mem_reverse.mp hc)
  have hdigf : Char.isDigit '/' = false := by decide
  have htake : (d.data.reverse ++ '/' :: (s.data.dropWhile Char.isWhitespace).reverse).takeWhile
      Char.isDigit = d.data.reverse := takeWhile_all_append _ _ _ _ hdigrev hdigf
  have hdrop : (d.data.reverse ++ '/' :: (s.data.dropWhile Char.isWhitespace).reverse).dropWhile
      Char.isDigit = '/' :: (s.data.dropWhile Char.isWhitespace).reverse :=
    dropWhile_all_append _ _ _ _ hdigrev hdigf
  show extractFromStr (s ++ "/" ++ d ++ "/") = some (natOfDigits d.data)
  rw [extractFromStr, if_neg hne, matchTrailingId, hstrip]
  simp only [trailingIdRev, htake, hdrop]
  rw [if_neg (by simp [hd])]
  simp

theorem trailingIdRev_some (L : List Char) (n : Nat) (h : trailingIdRev L = some n) :
    ∃ a ds : List Char, ds ≠ [] ∧ (∀ c ∈ ds, c.isDigit) ∧
      L = '/' :: ds ++ '/' :: a ∧ n = natOfDigits ds.reverse := by
  unfold trailingIdRev at h
  split at h
  · rename_i rest
    simp only [] at h
    split at h
    · exact absurd h (by simp)
    · rename_i hne
      split at h
      · rename_i tail heq
        injection h with hn
        refine ⟨tail, rest.takeWhile Char.isDigit, ?_, ?_, ?_, hn.symm⟩
        · intro hnil
          rw [hnil] at hne
          simp at hne
        · intro c hc
          exact List.mem_takeWhile_imp hc
        · have hsplit := List.takeWhile_append_dropWhile Char.isDigit rest
          congr 1
          conv_lhs => rw [← hsplit]
          rw [heq]
          rfl
      · exact absurd h (by simp)
  · exact absurd h (by simp)

theorem extract_id_no_match (u : String)
    (h : ∀ s d : String, d.data ≠ [] → (∀ c ∈ d.data, c.isDigit) →
      pyStrip u ≠ s ++ "/" ++ d ++ "/") :
    extract_id (.str u) = Option.none := by
  show extractFromStr u = Option.none
  unfold extractFromStr
  by_cases hu : u = ""
  · simp [hu]
  · rw [if_neg hu]
    unfold matchTrailingId
    cases hm : trailingIdRev (pyStrip u).data.reverse with
    | none => rfl
    | some n =>
      obtain ⟨a, ds, hne, hdig, hL, -⟩ := trailingIdRev_some _ _ hm
      exfalso
      apply h ⟨a.reverse⟩ ⟨ds.reverse⟩ (by simpa using hne)
        (fun c hc => hdig c (List.mem_reverse.mp hc))
      apply String.ext
      show (pyStrip u).data = ((a.reverse ++ ['/']) ++ ds.reverse) ++ ['/']
      have := congrArg List.reverse hL
      rw [List.reverse_reverse] at this
      rw [this]
      simp

/-- C5: the function `extract_id` looks only at the first element of a list argument
(returning `None` for the empty list), returns `None` without raising for
Python `None` or the empty string, trims surrounding whitespace, and for a
string of the shape `s ++ "/" ++ digits ++ "/"` returns the trailing digit
group as an integer; any string whose stripped form admits no such
decomposition — any string not matching the pattern — gives `None`. -/
theorem extract_id_spec :
    extract_id .pyNone = Option.none ∧
    extract_id (.str "") = Option.none ∧
    extract_id (.list []) = Option.none ∧
    (∀ (u : String) (rest : List String),
      extract_id (.list (u :: rest)) = extract_id (.str u)) ∧
    (∀ s d : String, d.data ≠ [] → (∀ c ∈ d.data, c.isDigit) →
      extract_id (.str (s ++ "/" ++ d ++ "/")) = some (natOfDigits d.data)) ∧
    extract_id (.list ["https://x/9/"]) = some 9 ∧
    extract_id (.str "  https://x/007/  ") = some 7 ∧
    extract_id (.str "https://x/abc/") = Option.none ∧
    extract_id (.str "https://x/9") = Option.none ∧
    (∀ u : String, (∀ s d : String, d.data ≠ [] → (∀ c ∈ d.data, c.isDigit) →
      pyStrip u ≠ s ++ "/" ++ d ++ "/") → extract_id (.str u) = Option.none) :=
  ⟨rfl, rfl, rfl, fun _ _ => rfl, extract_id_pattern, rfl, rfl, rfl, rfl, extract_id_no_match⟩

/-- Witness for C5's pattern clause at a concrete reference URL. -/
theorem extract_id_spec_witness :
    extract_id (.str ("https://x" ++ "/" ++ "9" ++ "/")) = some (natOfDigits "9".data) :=
  extract_id_spec.2.2.2.2.1 "https://x" "9" (by decide) (by decide)

end Pywars
